import Mathlib

/-!
Shallow embedding of the Laundry backend (OTP authentication, admin auth,
bulk contact/SMS sync, order cancellation) together with theorems checking
the natural-language specification against the code.

Conventions used throughout:
* the document store is a `List` of records; `findOne` becomes a first-match
  scan, `save` replaces the matching record in place;
* timestamps are integers (milliseconds since epoch), so `new Date()` becomes
  a `now : Int` parameter and `Date.now() + 10*60*1000` becomes `now + 600000`;
* JavaScript `undefined`/`null` valued fields become `Option` values; the JS
  truthiness test `!x` on a string becomes `x = ""`, and on an optional env
  var it is `truthy`;
* the random 6-digit code produced by `generateOTP()` is passed in as an
  explicit `randomCode` argument.
-/

set_option autoImplicit false

namespace Laundry

/-- JavaScript `a || b` for an optional env string `a` (empty string is falsy). -/
def jsOr (v : Option String) (d : String) : String :=
  match v with
  | none => d
  | some s => if s = "" then d else s

/-- JavaScript truthiness of an optional env string. -/
def truthy (v : Option String) : Bool :=
  match v with
  | none => false
  | some s => decide (s ≠ "")

/-- Test for the regex used by sendOtp: ten decimal digits. -/
def validPhone (s : String) : Bool :=
  decide (s.length = 10) && s.toList.all (fun c => c.isDigit)

/-- User document (src/models/User.js), restricted to the fields the OTP flow
and the contact sync read or write.  `isVerified` defaults to `false`. -/
structure UserRec where
  phoneNumber : String
  name : Option String
  email : Option String
  otp : Option String
  otpExpiry : Option Int
  isVerified : Bool
deriving Repr, DecidableEq

/-- Mongoose `User.findOne({ phoneNumber })`: first record with that phone. -/
def findUser : List UserRec → String → Option UserRec
  | [], _ => none
  | u :: rest, p => if u.phoneNumber = p then some u else findUser rest p

/-- Mongoose `user.save()`: replace the record(s) for this phone number
(`phoneNumber` carries a unique index, so at most one record matches). -/
def saveUser : List UserRec → UserRec → List UserRec
  | [], _ => []
  | u :: rest, u2 =>
    (if u.phoneNumber = u2.phoneNumber then u2 else u) :: saveUser rest u2

/-- Environment configuration read by the auth controller. -/
structure OtpConfig where
  nodeEnv : Option String
  staticOtp : Option String
deriving Repr, DecidableEq

/-- Outcome of `sendOtp`; `ok` carries the `otp` field echoed in the JSON
response (`none` when the field is `undefined`). -/
inductive SendResult where
  | missingPhone : SendResult
  | invalidPhone : SendResult
  | ok : Option String → SendResult
deriving Repr, DecidableEq

/-- sendOtp (authController, lines 17-85): validate the phone, compute
`otp = process.env.STATIC_OTP || generateOTP()` and a 10-minute expiry,
create the user if absent or overwrite the OTP fields in place, and echo the
code only in development or when a static OTP is configured. -/
def sendOtp (cfg : OtpConfig) (store : List UserRec) (phone : String)
    (randomCode : String) (now : Int) : SendResult × List UserRec :=
  if phone = "" then (.missingPhone, store)
  else if !validPhone phone then (.invalidPhone, store)
  else
    let otp := jsOr cfg.staticOtp randomCode
    let expiry : Int := now + 600000
    let store2 :=
      match findUser store phone with
      | none => store ++ [⟨phone, none, none, some otp, some expiry, false⟩]
      | some u => saveUser store { u with otp := some otp, otpExpiry := some expiry }
    let echo :=
      if cfg.nodeEnv = some "development" ∨ truthy cfg.staticOtp then some otp else none
    (.ok echo, store2)

/-- Outcome of `verifyOtp`. -/
inductive VerifyResult where
  | missingFields : VerifyResult
  | notFound : VerifyResult
  | expired : VerifyResult
  | mismatch : VerifyResult
  | success : VerifyResult
deriving Repr, DecidableEq

/-- JavaScript `user.otpExpiry < new Date()`: comparing `undefined` with a
date yields `false`, so an absent expiry is never "expired". -/
def otpExpired (expiry : Option Int) (now : Int) : Bool :=
  match expiry with
  | none => false
  | some e => decide (e < now)

/-- verifyOtp (authController, lines 88-164): missing-field check, user
lookup, expiry check, code comparison (`user.otp !== otp`), then mark
verified and clear both OTP fields. -/
def verifyOtp (store : List UserRec) (phone code : String) (now : Int) :
    VerifyResult × List UserRec :=
  if phone = "" ∨ code = "" then (.missingFields, store)
  else
    match findUser store phone with
    | none => (.notFound, store)
    | some u =>
      if otpExpired u.otpExpiry now then (.expired, store)
      else if u.otp ≠ some code then (.mismatch, store)
      else (.success,
        saveUser store { u with isVerified := true, otp := none, otpExpiry := none })

/-- Outcome of `resendOtp`; `ok` carries the echoed `otp` response field. -/
inductive ResendResult where
  | missingPhone : ResendResult
  | notFound : ResendResult
  | ok : Option String → ResendResult
deriving Repr, DecidableEq

/-- resendOtp (authController, lines 167-210): requires an existing user
(never creates one), stores `generateOTP()` directly — the `STATIC_OTP`
override is not consulted — with a fresh 10-minute expiry, and echoes the
code only in development. -/
def resendOtp (cfg : OtpConfig) (store : List UserRec) (phone : String)
    (randomCode : String) (now : Int) : ResendResult × List UserRec :=
  if phone = "" then (.missingPhone, store)
  else
    match findUser store phone with
    | none => (.notFound, store)
    | some u =>
      let store2 := saveUser store { u with otp := some randomCode, otpExpiry := some (now + 600000) }
      let echo := if cfg.nodeEnv = some "development" then some randomCode else none
      (.ok echo, store2)

/-! ### Contact bulk sync (contactController.js `syncContacts`, models/Contact.js) -/

/-- Contact document (src/models/Contact.js): owning user, phone number,
name, optional email, last-sync timestamp.  `(userId, phoneNumber)` carries a
unique compound index. -/
structure ContactRec where
  userId : Nat
  phoneNumber : String
  name : String
  email : Option String
  syncedAt : Int
deriving Repr, DecidableEq

/-- One element of the `contacts` request array. -/
structure ContactInput where
  name : String
  phoneNumber : String
  email : Option String
deriving Repr, DecidableEq

/-- JavaScript `contact.email || null` (missing or empty string becomes null). -/
def emailOrNull (e : Option String) : Option String :=
  match e with
  | none => none
  | some s => if s = "" then none else some s

/-- Does the store hold a row matching the filter `{ userId, phoneNumber }`? -/
def keyMem : List ContactRec → Nat → String → Bool
  | [], _, _ => false
  | r :: rest, uid, p =>
    if r.userId = uid ∧ r.phoneNumber = p then true else keyMem rest uid p

/-- Mongo `updateOne` with `$set {name, email, syncedAt}`: rewrite the first
row matching `{ userId, phoneNumber }`, leaving every other row alone. -/
def setFirst : List ContactRec → Nat → String → String → Option String → Int → List ContactRec
  | [], _, _, _, _, _ => []
  | r :: rest, uid, p, nm, em, t =>
    if r.userId = uid ∧ r.phoneNumber = p then
      { r with name := nm, email := em, syncedAt := t } :: rest
    else r :: setFirst rest uid p nm em t

/-- One `updateOne ... upsert: true` bulk operation: update the matching row
if one exists, otherwise insert a new row built from the filter and `$set`
fields. -/
def upsertContact (store : List ContactRec) (uid : Nat) (c : ContactInput) (t : Int) :
    List ContactRec :=
  if keyMem store uid c.phoneNumber then
    setFirst store uid c.phoneNumber c.name (emailOrNull c.email) t
  else
    store ++ [⟨uid, c.phoneNumber, c.name, emailOrNull c.email, t⟩]

/-- `Contact.bulkWrite(bulkOps)`: the (ordered) bulk operations run one after
the other. -/
def runBulkUpsert (store : List ContactRec) (uid : Nat) (cs : List ContactInput) (t : Int) :
    List ContactRec :=
  match cs with
  | [] => store
  | c :: rest => runBulkUpsert (upsertContact store uid c t) uid rest t

/-- Outcome of `syncContacts` (the JSON counters are not modelled; the claims
concern only the resulting rows). -/
inductive SyncContactsResult where
  | nothingToSync : SyncContactsResult
  | ok : SyncContactsResult
deriving Repr, DecidableEq

/-- syncContacts (contactController.js, lines 5-91): empty-list early return;
when `userPhoneNumber` is truthy and the user record resolves, push a
synthetic self contact (`user.name || 'Me (Own Number)'`, `user.email ||
null`) onto the batch; then run one ordered bulk upsert keyed on
`(userId, phoneNumber)`.  The `contactPermission: true` user update does not
touch contact rows and is outside this function's result. -/
def syncContacts (store : List ContactRec) (uid : Nat) (user : Option UserRec)
    (contacts : List ContactInput) (userPhone : Option String) (t : Int) :
    SyncContactsResult × List ContactRec :=
  if contacts = [] then (.nothingToSync, store)
  else
    let batch :=
      match userPhone, user with
      | some p, some u =>
        if p ≠ "" then contacts ++ [⟨jsOr u.name "Me (Own Number)", p, u.email⟩]
        else contacts
      | _, _ => contacts
    (.ok, runBulkUpsert store uid batch t)

/-- The `(userId, phoneNumber)` key of a contact row. -/
def rowKey (r : ContactRec) : Nat × String := (r.userId, r.phoneNumber)

/-- The unique compound index of models/Contact.js: no two rows share a
`(userId, phoneNumber)` pair. -/
def UniqueKeys (store : List ContactRec) : Prop :=
  (store.map rowKey).Nodup

/-- First row matching `{ userId, phoneNumber }` (the row `updateOne` acts on). -/
def firstRowAt : List ContactRec → Nat → String → Option ContactRec
  | [], _, _ => none
  | r :: rest, uid, p =>
    if r.userId = uid ∧ r.phoneNumber = p then some r else firstRowAt rest uid p

/-- Proof-internal relation: `s2` is `s1` with the fields of the first
`(uid, p)` row rewritten (and such a row exists). -/
def DiffOne (uid : Nat) (p : String) (s1 s2 : List ContactRec) : Prop :=
  keyMem s1 uid p = true ∧ ∃ nm em t, s2 = setFirst s1 uid p nm em t

/-! ### SMS bulk sync (smsController.js `syncSmsBatch`, models/Sms.js) -/

/-- Sms document (models/Sms.js): all fields required, `type` restricted to
`inbox`/`sent`, unique compound index on `(userId, smsId)`. -/
structure SmsRec where
  userId : Nat
  smsId : String
  address : String
  body : String
  date : Int
  msgType : String
deriving Repr, DecidableEq

/-- One element of the `smsData` request array; every field may be absent. -/
structure SmsItem where
  id : Option String
  address : Option String
  body : Option String
  date : Option Int
  msgType : Option String
deriving Repr, DecidableEq

/-- Mongoose `required: true` on a String path: present and non-empty. -/
def reqStr (v : Option String) : Bool :=
  match v with
  | none => false
  | some s => decide (s ≠ "")

/-- Whether `Sms.create` succeeds for this item (mongoose validation: every
required path present, `type` in the enum, a parsable date). -/
def validSmsItem (it : SmsItem) : Bool :=
  reqStr it.id && reqStr it.address && reqStr it.body && it.date.isSome &&
    decide (it.msgType = some "inbox" ∨ it.msgType = some "sent")

/-- The `Sms.findOne({ userId, smsId: sms.id })` existence check.  When
`sms.id` is `undefined` mongoose drops that key from the filter, so the query
degenerates to `findOne({ userId })`. -/
def smsDup : List SmsRec → Nat → Option String → Bool
  | [], _, _ => false
  | r :: rest, uid, some i =>
    if r.userId = uid ∧ r.smsId = i then true else smsDup rest uid (some i)
  | r :: rest, uid, none =>
    if r.userId = uid then true else smsDup rest uid none

/-- Per-item outcome inside the `syncSmsBatch` loop. -/
inductive SmsOutcome where
  | synced : SmsOutcome
  | skipped : SmsOutcome
  | errored : SmsOutcome
deriving Repr, DecidableEq

/-- One iteration of the `for (const sms of smsData)` loop: existence check
first (duplicate = skip), then `Sms.create` (throwing = the item lands in the
error list and the loop continues). -/
def processSmsItem (uid : Nat) (store : List SmsRec) (it : SmsItem) :
    SmsOutcome × List SmsRec :=
  if smsDup store uid it.id then (.skipped, store)
  else if validSmsItem it then
    (.synced, store ++
      [⟨uid, it.id.getD "", it.address.getD "", it.body.getD "", it.date.getD 0,
        it.msgType.getD ""⟩])
  else (.errored, store)

/-- The whole loop, returning the per-item outcomes in order together with
the final store. -/
def runSmsBatch (uid : Nat) (store : List SmsRec) : List SmsItem → List SmsOutcome × List SmsRec
  | [] => ([], store)
  | it :: rest =>
    let step := processSmsItem uid store it
    let tail := runSmsBatch uid step.2 rest
    (step.1 :: tail.1, tail.2)

/-- Number of outcomes equal to `o`. -/
def countO : List SmsOutcome → SmsOutcome → Nat
  | [], _ => 0
  | x :: xs, o => (if x = o then 1 else 0) + countO xs o

/-- Outcome of `syncSmsBatch`: the `{synced, skipped, errors}` counters of the
200 response, or the 400 bad-request branch. -/
inductive SmsBatchResult where
  | badRequest : SmsBatchResult
  | completed : Nat → Nat → Nat → SmsBatchResult
deriving Repr, DecidableEq

/-- syncSmsBatch (smsController.js, lines 57-123): reject a missing userId or
a non-array `smsData`, then run the loop and report the three counters. -/
def syncSmsBatch (uid : Option Nat) (items : Option (List SmsItem))
    (store : List SmsRec) : SmsBatchResult × List SmsRec :=
  match uid, items with
  | some u, some its =>
    let run := runSmsBatch u store its
    (.completed (countO run.1 .synced) (countO run.1 .skipped) (countO run.1 .errored),
      run.2)
  | _, _ => (.badRequest, store)

/-- Number of batch items whose `(userId, smsId)` pair already occurs in a
given store — the "M duplicates of rows already stored" of the spec. -/
def dupCount (store : List SmsRec) (uid : Nat) : List SmsItem → Nat
  | [] => 0
  | it :: rest => (if smsDup store uid it.id then 1 else 0) + dupCount store uid rest

/-! ### Admin authentication (middleware/auth.js `adminProtect`, adminController.js `adminLogin`) -/

/-- Admin document (src/models/Admin.js), restricted to the fields the login
and the guard read. -/
structure AdminRec where
  aid : Nat
  email : String
  password : String
  isActive : Bool
deriving Repr, DecidableEq

/-- Mongoose `Admin.findOne({ email })`. -/
def findAdminByEmail : List AdminRec → String → Option AdminRec
  | [], _ => none
  | a :: rest, e => if a.email = e then some a else findAdminByEmail rest e

/-- Mongoose `Admin.findById(id)`. -/
def findAdminById : List AdminRec → Nat → Option AdminRec
  | [], _ => none
  | a :: rest, i => if a.aid = i then some a else findAdminById rest i

/-- Outcome of `adminLogin`; `ok` carries the admin id the issued token is
bound to. -/
inductive AdminLoginResult where
  | missingFields : AdminLoginResult
  | invalidCredentials : AdminLoginResult
  | deactivated : AdminLoginResult
  | ok : Nat → AdminLoginResult
deriving Repr, DecidableEq

/-- adminLogin (adminController, lines 13-141): missing-credential check,
lookup by email, `bcrypt.compare` (passed in as an oracle), then the
`isActive` check, then token issuance. -/
def adminLogin (bcryptMatch : String → String → Bool) (admins : List AdminRec)
    (email password : String) : AdminLoginResult :=
  if email = "" ∨ password = "" then .missingFields
  else
    match findAdminByEmail admins email with
    | none => .invalidCredentials
    | some a =>
      if !bcryptMatch password a.password then .invalidCredentials
      else if !a.isActive then .deactivated
      else .ok a.aid

/-- JavaScript `header.split(' ')` on the character list (splits at every
single space, keeping empty pieces). -/
def splitAtSpaces : List Char → List (List Char)
  | [] => [[]]
  | c :: rest =>
    let r := splitAtSpaces rest
    if c = ' ' then [] :: r
    else
      match r with
      | [] => [[c]]
      | w :: ws => (c :: w) :: ws

/-- Token extraction shared by both guards:
`authorization && authorization.startsWith('Bearer')` then
`authorization.split(' ')[1]`, with the subsequent `if (!token)` check. -/
def extractBearer (h : Option String) : Option String :=
  match h with
  | none => none
  | some s =>
    if List.isPrefixOf "Bearer".toList s.toList then
      match (splitAtSpaces s.toList).get? 1 with
      | none => none
      | some w => if w = [] then none else some (String.mk w)
    else none

/-- Outcome of the `adminProtect` guard; `ok` carries the resolved admin. -/
inductive AdminAuthResult where
  | noToken : AdminAuthResult
  | badToken : AdminAuthResult
  | forbidden : AdminAuthResult
  | ok : AdminRec → AdminAuthResult
deriving Repr, DecidableEq

/-- adminProtect (middleware/auth.js, lines 46-112): extract the bearer token
(401 when absent), verify it (`jwt.verify`, passed in as an oracle returning
the subject id, 401 on failure), resolve the id against the Admin store (403
when it is not an admin).  The admin's `isActive` flag is never consulted. -/
def adminProtect (verifyTok : String → Option Nat) (admins : List AdminRec)
    (header : Option String) : AdminAuthResult :=
  match extractBearer header with
  | none => .noToken
  | some t =>
    match verifyTok t with
    | none => .badToken
    | some i =>
      match findAdminById admins i with
      | none => .forbidden
      | some a => .ok a

/-! ### Order cancellation (serviceRoutes.js PATCH /:id/cancel) -/

/-- Order status enum (src/models/Order.js). -/
inductive OrderStatus where
  | pending : OrderStatus
  | picked : OrderStatus
  | inProcess : OrderStatus
  | delivered : OrderStatus
  | cancelled : OrderStatus
deriving Repr, DecidableEq

/-- Order document, restricted to the fields the cancel route reads. -/
structure OrderRec where
  oid : Nat
  userId : Nat
  status : OrderStatus
deriving Repr, DecidableEq

/-- Mongoose `Order.findById(id)`. -/
def findOrder : List OrderRec → Nat → Option OrderRec
  | [], _ => none
  | o :: rest, i => if o.oid = i then some o else findOrder rest i

/-- Mongoose `order.save()`: replace the record with this id in place. -/
def saveOrder : List OrderRec → OrderRec → List OrderRec
  | [], _ => []
  | o :: rest, o2 => (if o.oid = o2.oid then o2 else o) :: saveOrder rest o2

/-- Outcome of the cancel route. -/
inductive CancelResult where
  | notFound : CancelResult
  | notOwner : CancelResult
  | invalidState : CancelResult
  | ok : CancelResult
deriving Repr, DecidableEq

/-- PATCH /api/orders/:id/cancel (serviceRoutes.js, lines 717-763): 404 when
the order is absent, 403 when the caller does not own it, 400 when the status
is already `delivered` or `cancelled`, otherwise set the status to
`cancelled` and save. -/
def cancelOrder (orders : List OrderRec) (oid callerId : Nat) :
    CancelResult × List OrderRec :=
  match findOrder orders oid with
  | none => (.notFound, orders)
  | some o =>
    if o.userId ≠ callerId then (.notOwner, orders)
    else if o.status = .delivered ∨ o.status = .cancelled then (.invalidState, orders)
    else (.ok, saveOrder orders { o with status := .cancelled })

/-! ## Helper lemmas -/

theorem findUser_phone {store : List UserRec} {p : String} {u : UserRec}
    (h : findUser store p = some u) : u.phoneNumber = p := by
  induction store with
  | nil => simp [findUser] at h
  | cons v rest ih =>
    by_cases hv : v.phoneNumber = p
    · simp [findUser, hv] at h
      rw [← h, hv]
    · simp [findUser, hv] at h
      exact ih h

theorem findUser_saveUser {store : List UserRec} {p : String} {u : UserRec}
    (u2 : UserRec) (h : findUser store p = some u) (h2 : u2.phoneNumber = p) :
    findUser (saveUser store u2) p = some u2 := by
  induction store with
  | nil => simp [findUser] at h
  | cons v rest ih =>
    by_cases hv : v.phoneNumber = p
    · have : v.phoneNumber = u2.phoneNumber := by rw [hv, h2]
      simp [saveUser, this, findUser, h2]
    · have hv2 : v.phoneNumber ≠ u2.phoneNumber := by rw [h2]; exact hv
      simp [findUser, hv] at h
      simp [saveUser, hv2, findUser, hv]
      exact ih h

theorem validPhone_ne_empty {p : String} (h : validPhone p = true) : p ≠ "" := by
  intro he
  subst he
  simp [validPhone] at h

/-! ## C5: expiry check precedes the code comparison -/

/-- C5: whenever the stored expiry is strictly before the current time,
`verifyOtp` fails with the expired error, even though the stored code equals
the provided one — the expiry check takes precedence over the comparison. -/
theorem verifyOtp_expired_precedence
    (store : List UserRec) (phone code : String) (now : Int) (u : UserRec) (e : Int)
    (hp : phone ≠ "") (hc : code ≠ "") (hu : findUser store phone = some u)
    (hcode : u.otp = some code) (he : u.otpExpiry = some e) (hlt : e < now) :
    (verifyOtp store phone code now).1 = VerifyResult.expired := by
  simp [verifyOtp, hp, hc, hu, otpExpired, he, hlt]

theorem verifyOtp_expired_precedence_witness :
    (verifyOtp [⟨"9876543210", none, none, some "123456", some 600000, false⟩]
      "9876543210" "123456" 600001).1 = VerifyResult.expired :=
  verifyOtp_expired_precedence _ "9876543210" "123456" 600001
    ⟨"9876543210", none, none, some "123456", some 600000, false⟩ 600000
    (by decide) (by decide) (by decide) rfl rfl (by decide)

/-! ## C9: cancellation is blocked exactly from delivered/cancelled -/

theorem findOrder_oid {orders : List OrderRec} {i : Nat} {o : OrderRec}
    (h : findOrder orders i = some o) : o.oid = i := by
  induction orders with
  | nil => simp [findOrder] at h
  | cons v rest ih =>
    by_cases hv : v.oid = i
    · simp [findOrder, hv] at h
      rw [← h, hv]
    · simp [findOrder, hv] at h
      exact ih h

theorem findOrder_saveOrder {orders : List OrderRec} {i : Nat} {o : OrderRec}
    (o2 : OrderRec) (h : findOrder orders i = some o) (h2 : o2.oid = i) :
    findOrder (saveOrder orders o2) i = some o2 := by
  induction orders with
  | nil => simp [findOrder] at h
  | cons v rest ih =>
    by_cases hv : v.oid = i
    · have : v.oid = o2.oid := by rw [hv, h2]
      simp [saveOrder, this, findOrder, h2]
    · have hv2 : v.oid ≠ o2.oid := by rw [h2]; exact hv
      simp [findOrder, hv] at h
      simp [saveOrder, hv2, findOrder, hv]
      exact ih h

/-- C9: for an existing order owned by the caller, cancellation fails with
the invalid-state error (leaving the store untouched) exactly when the status
is `delivered` or `cancelled`; from any other status it succeeds and the
stored order becomes `cancelled`. -/
theorem cancelOrder_spec (orders : List OrderRec) (oid callerId : Nat) (o : OrderRec)
    (hfind : findOrder orders oid = some o) (hown : o.userId = callerId) :
    ((o.status = .delivered ∨ o.status = .cancelled) →
        cancelOrder orders oid callerId = (.invalidState, orders)) ∧
    ((o.status ≠ .delivered ∧ o.status ≠ .cancelled) →
        (cancelOrder orders oid callerId).1 = .ok ∧
        findOrder (cancelOrder orders oid callerId).2 oid =
          some { o with status := .cancelled }) := by
  constructor
  · intro hterm
    simp [cancelOrder, hfind, hown, hterm]
  · rintro ⟨h1, h2⟩
    have hnot : ¬(o.status = OrderStatus.delivered ∨ o.status = OrderStatus.cancelled) := by
      rintro (h | h) <;> [exact h1 h; exact h2 h]
    have hownb : ¬(o.userId ≠ callerId) := by simp [hown]
    constructor
    · simp [cancelOrder, hfind, hownb, hnot]
    · have hred : (cancelOrder orders oid callerId).2 =
          saveOrder orders { o with status := OrderStatus.cancelled } := by
        simp [cancelOrder, hfind, hownb, hnot]
      rw [hred]
      have h2 : ({ o with status := OrderStatus.cancelled } : OrderRec).oid = oid := by
        show o.oid = oid
        exact findOrder_oid hfind
      exact findOrder_saveOrder { o with status := OrderStatus.cancelled } hfind h2

theorem cancelOrder_spec_witness :
    ((OrderStatus.pending = OrderStatus.delivered ∨ OrderStatus.pending = OrderStatus.cancelled) →
        cancelOrder [⟨5, 7, OrderStatus.pending⟩] 5 7 =
          (.invalidState, [⟨5, 7, OrderStatus.pending⟩])) ∧
    ((OrderStatus.pending ≠ OrderStatus.delivered ∧ OrderStatus.pending ≠ OrderStatus.cancelled) →
        (cancelOrder [⟨5, 7, OrderStatus.pending⟩] 5 7).1 = .ok ∧
        findOrder (cancelOrder [⟨5, 7, OrderStatus.pending⟩] 5 7).2 5 =
          some ⟨5, 7, OrderStatus.cancelled⟩) :=
  cancelOrder_spec [⟨5, 7, OrderStatus.pending⟩] 5 7 ⟨5, 7, OrderStatus.pending⟩
    (by decide) (by decide)

/-! ## C8: deactivated admin — login blocked, token guard passes -/

theorem splitAtSpaces_no_space {cs : List Char} (h : ∀ c ∈ cs, c ≠ ' ') :
    splitAtSpaces cs = [cs] := by
  induction cs with
  | nil => rfl
  | cons c rest ih =>
    have hc : c ≠ ' ' := h c (by simp)
    have hr : splitAtSpaces rest = [rest] := ih (fun d hd => h d (by simp [hd]))
    simp [splitAtSpaces, hc, hr]

theorem extractBearer_bearer (t : String) (ht : t ≠ "") (hsp : ∀ c ∈ t.toList, c ≠ ' ') :
    extractBearer (some ("Bearer " ++ t)) = some t := by
  obtain ⟨cs⟩ := t
  have hlist : ("Bearer " ++ String.mk cs).toList =
      'B' :: 'e' :: 'a' :: 'r' :: 'e' :: 'r' :: ' ' :: cs := rfl
  have hcs : cs ≠ [] := by
    intro h
    exact ht (by rw [h])
  have hsplit : splitAtSpaces ('B' :: 'e' :: 'a' :: 'r' :: 'e' :: 'r' :: ' ' :: cs) =
      [['B', 'e', 'a', 'r', 'e', 'r'], cs] := by
    have : splitAtSpaces cs = [cs] := splitAtSpaces_no_space hsp
    simp [splitAtSpaces, this]
  simp [extractBearer, hlist, hsplit, List.isPrefixOf, hcs]

/-- C8: a deactivated admin with the correct password is rejected by a fresh
credential login (the deactivated branch), while a still-valid token for the
same admin continues to pass the admin guard, because `adminProtect` never
consults the `isActive` flag. -/
theorem adminGuard_active_gap
    (verifyTok : String → Option Nat) (bcryptMatch : String → String → Bool)
    (admins : List AdminRec) (a : AdminRec) (password t : String)
    (hemail : a.email ≠ "") (hpw : password ≠ "")
    (hfindE : findAdminByEmail admins a.email = some a)
    (hmatch : bcryptMatch password a.password = true)
    (hinactive : a.isActive = false)
    (htok : verifyTok t = some a.aid)
    (hfindI : findAdminById admins a.aid = some a)
    (ht : t ≠ "") (hsp : ∀ c ∈ t.toList, c ≠ ' ') :
    adminLogin bcryptMatch admins a.email password = .deactivated ∧
    adminProtect verifyTok admins (some ("Bearer " ++ t)) = .ok a := by
  constructor
  · simp [adminLogin, hemail, hpw, hfindE, hmatch, hinactive]
  · simp [adminProtect, extractBearer_bearer t ht hsp, htok, hfindI]

theorem adminGuard_active_gap_witness :
    adminLogin (fun p _ => p = "secret") [⟨1, "admin@x.io", "HASH", false⟩]
      "admin@x.io" "secret" = .deactivated ∧
    adminProtect (fun s => if s = "tok123" then some 1 else none)
      [⟨1, "admin@x.io", "HASH", false⟩] (some ("Bearer " ++ "tok123")) =
      .ok ⟨1, "admin@x.io", "HASH", false⟩ :=
  adminGuard_active_gap (fun s => if s = "tok123" then some 1 else none)
    (fun p _ => p = "secret") [⟨1, "admin@x.io", "HASH", false⟩]
    ⟨1, "admin@x.io", "HASH", false⟩ "secret" "tok123"
    (by decide) (by decide) (by decide) (by decide) rfl (by decide) (by decide)
    (by decide) (by decide)

/-! ## C1: success clears the OTP fields and blocks replay -/

/-- C1: a successful `verifyOtp` leaves the user's two OTP fields absent, and
replaying the very same code against the resulting store fails with the
mismatch error at every later time — never succeeding and never reporting
expiry (an absent expiry never compares as expired). -/
theorem verifyOtp_clears_and_blocks_replay
    (store store2 : List UserRec) (phone code : String) (now now2 : Int)
    (h : verifyOtp store phone code now = (.success, store2)) :
    Option.map UserRec.otp (findUser store2 phone) = some none ∧
    Option.map UserRec.otpExpiry (findUser store2 phone) = some none ∧
    (verifyOtp store2 phone code now2).1 = VerifyResult.mismatch := by
  by_cases hp : phone = "" ∨ code = ""
  · simp [verifyOtp, hp] at h
  · push_neg at hp
    obtain ⟨hp1, hp2⟩ := hp
    cases hfu : findUser store phone with
    | none => simp [verifyOtp, hp1, hp2, hfu] at h
    | some u =>
      by_cases hexp : otpExpired u.otpExpiry now = true
      · simp [verifyOtp, hp1, hp2, hfu, hexp] at h
      · by_cases hneq : u.otp ≠ some code
        · simp [verifyOtp, hp1, hp2, hfu, hexp, hneq] at h
        · have hstore : store2 =
              saveUser store { u with isVerified := true, otp := none, otpExpiry := none } := by
            simp [verifyOtp, hp1, hp2, hfu, hexp, hneq] at h
            exact h.symm
          have hfind2 : findUser store2 phone =
              some { u with isVerified := true, otp := none, otpExpiry := none } := by
            rw [hstore]
            refine findUser_saveUser _ hfu ?_
            show u.phoneNumber = phone
            exact findUser_phone hfu
          refine ⟨?_, ?_, ?_⟩
          · rw [hfind2]; rfl
          · rw [hfind2]; rfl
          · simp [verifyOtp, hp1, hp2, hfind2, otpExpired]

theorem verifyOtp_clears_and_blocks_replay_witness :
    Option.map UserRec.otp
        (findUser [⟨"9876543210", none, none, none, none, true⟩] "9876543210") = some none ∧
    Option.map UserRec.otpExpiry
        (findUser [⟨"9876543210", none, none, none, none, true⟩] "9876543210") = some none ∧
    (verifyOtp [⟨"9876543210", none, none, none, none, true⟩]
        "9876543210" "123456" 99).1 = VerifyResult.mismatch :=
  verifyOtp_clears_and_blocks_replay
    [⟨"9876543210", none, none, some "123456", some 600000, false⟩]
    [⟨"9876543210", none, none, none, none, true⟩]
    "9876543210" "123456" 0 99 (by decide)

/-! ## C2: a second OTP request overwrites, the stale code then mismatches -/

/-- C2: for an existing user, requesting an OTP twice (and likewise request
followed by resend) overwrites both stored OTP fields in place with the
second code and its fresh expiry, and verifying with the first (stale) code
afterwards — within the second code's validity window — fails with the
mismatch error.  Stated for the random-generation path (no static override)
with distinct generated codes. -/
theorem otp_overwrite_blocks_stale
    (cfg : OtpConfig) (store : List UserRec) (phone c1 c2 : String)
    (n1 n2 n3 : Int) (u : UserRec)
    (hstatic : cfg.staticOtp = none)
    (hvalid : validPhone phone = true)
    (hu : findUser store phone = some u)
    (hne : c1 ≠ c2) (hc1 : c1 ≠ "")
    (hfresh : n3 ≤ n2 + 600000) :
    (Option.map UserRec.otp
        (findUser (sendOtp cfg (sendOtp cfg store phone c1 n1).2 phone c2 n2).2 phone) =
          some (some c2) ∧
      Option.map UserRec.otpExpiry
        (findUser (sendOtp cfg (sendOtp cfg store phone c1 n1).2 phone c2 n2).2 phone) =
          some (some (n2 + 600000)) ∧
      (verifyOtp (sendOtp cfg (sendOtp cfg store phone c1 n1).2 phone c2 n2).2
          phone c1 n3).1 = VerifyResult.mismatch) ∧
    (Option.map UserRec.otp
        (findUser (resendOtp cfg (sendOtp cfg store phone c1 n1).2 phone c2 n2).2 phone) =
          some (some c2) ∧
      (verifyOtp (resendOtp cfg (sendOtp cfg store phone c1 n1).2 phone c2 n2).2
          phone c1 n3).1 = VerifyResult.mismatch) := by
  have hp : phone ≠ "" := validPhone_ne_empty hvalid
  have hphoneu : u.phoneNumber = phone := findUser_phone hu
  have hs1 : (sendOtp cfg store phone c1 n1).2 =
      saveUser store { u with otp := some c1, otpExpiry := some (n1 + 600000) } := by
    simp [sendOtp, hp, hvalid, hu, hstatic, jsOr]
  have hf1 : findUser (sendOtp cfg store phone c1 n1).2 phone =
      some { u with otp := some c1, otpExpiry := some (n1 + 600000) } := by
    rw [hs1]
    exact findUser_saveUser _ hu hphoneu
  have hnlt : ¬(n2 + 600000 < n3) := by omega
  have hne2 : c2 ≠ c1 := fun hx => hne hx.symm
  generalize hgen : (sendOtp cfg store phone c1 n1).2 = s1 at hf1 ⊢
  constructor
  · have hs2 : (sendOtp cfg s1 phone c2 n2).2 =
        saveUser s1 { u with otp := some c2, otpExpiry := some (n2 + 600000) } := by
      simp [sendOtp, hp, hvalid, hf1, hstatic, jsOr]
    have hf2 : findUser (sendOtp cfg s1 phone c2 n2).2 phone =
        some { u with otp := some c2, otpExpiry := some (n2 + 600000) } := by
      rw [hs2]
      exact findUser_saveUser _ hf1 hphoneu
    refine ⟨by rw [hf2]; rfl, by rw [hf2]; rfl, ?_⟩
    simp [verifyOtp, hp, hc1, hf2, otpExpired, hnlt, hne2]
  · have hs2 : (resendOtp cfg s1 phone c2 n2).2 =
        saveUser s1 { u with otp := some c2, otpExpiry := some (n2 + 600000) } := by
      simp [resendOtp, hp, hf1]
    have hf2 : findUser (resendOtp cfg s1 phone c2 n2).2 phone =
        some { u with otp := some c2, otpExpiry := some (n2 + 600000) } := by
      rw [hs2]
      exact findUser_saveUser _ hf1 hphoneu
    refine ⟨by rw [hf2]; rfl, ?_⟩
    simp [verifyOtp, hp, hc1, hf2, otpExpired, hnlt, hne2]

theorem otp_overwrite_blocks_stale_witness :
    (Option.map UserRec.otp
        (findUser (sendOtp ⟨some "production", none⟩
          (sendOtp ⟨some "production", none⟩
            [⟨"9876543210", none, none, none, none, false⟩] "9876543210" "111111" 0).2
          "9876543210" "222222" 50).2 "9876543210") = some (some "222222") ∧
      Option.map UserRec.otpExpiry
        (findUser (sendOtp ⟨some "production", none⟩
          (sendOtp ⟨some "production", none⟩
            [⟨"9876543210", none, none, none, none, false⟩] "9876543210" "111111" 0).2
          "9876543210" "222222" 50).2 "9876543210") = some (some (50 + 600000)) ∧
      (verifyOtp (sendOtp ⟨some "production", none⟩
          (sendOtp ⟨some "production", none⟩
            [⟨"9876543210", none, none, none, none, false⟩] "9876543210" "111111" 0).2
          "9876543210" "222222" 50).2 "9876543210" "111111" 60).1 = VerifyResult.mismatch) ∧
    (Option.map UserRec.otp
        (findUser (resendOtp ⟨some "production", none⟩
          (sendOtp ⟨some "production", none⟩
            [⟨"9876543210", none, none, none, none, false⟩] "9876543210" "111111" 0).2
          "9876543210" "222222" 50).2 "9876543210") = some (some "222222") ∧
      (verifyOtp (resendOtp ⟨some "production", none⟩
          (sendOtp ⟨some "production", none⟩
            [⟨"9876543210", none, none, none, none, false⟩] "9876543210" "111111" 0).2
          "9876543210" "222222" 50).2 "9876543210" "111111" 60).1 = VerifyResult.mismatch) :=
  otp_overwrite_blocks_stale ⟨some "production", none⟩
    [⟨"9876543210", none, none, none, none, false⟩] "9876543210" "111111" "222222"
    0 50 60 ⟨"9876543210", none, none, none, none, false⟩
    rfl (by decide) (by decide) (by decide) (by decide) (by decide)

/-! ## C7: production responses never echo the code -/

/-- C7: in production mode with no static-OTP override, the `sendOtp`
response carries no `otp` field, and two runs that generate different random
codes produce identical responses; the code can only ever be echoed in
development mode or under an active static override. -/
theorem sendOtp_production_hides_code
    (cfg : OtpConfig) (store : List UserRec) (phone r1 r2 : String) (now : Int)
    (hvalid : validPhone phone = true)
    (hprod : cfg.nodeEnv = some "production")
    (hstat : truthy cfg.staticOtp = false) :
    (sendOtp cfg store phone r1 now).1 = SendResult.ok none ∧
    (sendOtp cfg store phone r1 now).1 = (sendOtp cfg store phone r2 now).1 := by
  have hp : phone ≠ "" := validPhone_ne_empty hvalid
  have hdev : ¬(cfg.nodeEnv = some "development") := by
    rw [hprod]
    simp
  have hecho : ∀ r : String, (sendOtp cfg store phone r now).1 = SendResult.ok none := by
    intro r
    cases hfu : findUser store phone with
    | none => simp [sendOtp, hp, hvalid, hfu, hdev, hstat]
    | some u => simp [sendOtp, hp, hvalid, hfu, hdev, hstat]
  exact ⟨hecho r1, (hecho r1).trans (hecho r2).symm⟩

theorem sendOtp_production_hides_code_witness :
    (sendOtp ⟨some "production", none⟩ [] "9876543210" "111111" 0).1 = SendResult.ok none ∧
    (sendOtp ⟨some "production", none⟩ [] "9876543210" "111111" 0).1 =
      (sendOtp ⟨some "production", none⟩ [] "9876543210" "999999" 0).1 :=
  sendOtp_production_hides_code ⟨some "production", none⟩ [] "9876543210" "111111" "999999" 0
    (by decide) rfl rfl

/-! ## C6: resendOtp is not identical to requestOtp under a static override -/

/-- C6 counterexample: with the static override `111111` configured, the same
store, phone and freshly generated code `222222`, `sendOtp` stores the static
value while `resendOtp` stores the random one — the generation behaviour is
not identical, contrary to the claim. -/
theorem resendOtp_static_counterexample :
    Option.map UserRec.otp
        (findUser (sendOtp ⟨some "production", some "111111"⟩
          [⟨"9876543210", none, none, none, none, false⟩] "9876543210" "222222" 0).2
          "9876543210") = some (some "111111") ∧
    Option.map UserRec.otp
        (findUser (resendOtp ⟨some "production", some "111111"⟩
          [⟨"9876543210", none, none, none, none, false⟩] "9876543210" "222222" 0).2
          "9876543210") = some (some "222222") := by
  decide

/-- C6 amended: `resendOtp` fails with the not-found error when no user
exists for the number and never creates one; for an existing user it stores
the freshly generated random code with a 10-minute expiry — identical to
`requestOtp`'s storage behaviour only when no static-OTP override is active,
because `resendOtp` ignores the override. -/
theorem resendOtp_amended
    (cfg : OtpConfig) (storeA storeB : List UserRec) (phone rcode : String)
    (now : Int) (u : UserRec)
    (hstatic : cfg.staticOtp = none)
    (hvalid : validPhone phone = true)
    (hnone : findUser storeA phone = none)
    (hsome : findUser storeB phone = some u) :
    resendOtp cfg storeA phone rcode now = (.notFound, storeA) ∧
    (resendOtp cfg storeB phone rcode now).2 =
      saveUser storeB { u with otp := some rcode, otpExpiry := some (now + 600000) } ∧
    (resendOtp cfg storeB phone rcode now).2 = (sendOtp cfg storeB phone rcode now).2 := by
  have hp : phone ≠ "" := validPhone_ne_empty hvalid
  refine ⟨by simp [resendOtp, hp, hnone], by simp [resendOtp, hp, hsome], ?_⟩
  simp [resendOtp, sendOtp, hp, hvalid, hsome, hstatic, jsOr]

theorem resendOtp_amended_witness :
    resendOtp ⟨some "production", none⟩ [] "9876543210" "333333" 0 = (.notFound, []) ∧
    (resendOtp ⟨some "production", none⟩
        [⟨"9876543210", none, none, none, none, false⟩] "9876543210" "333333" 0).2 =
      saveUser [⟨"9876543210", none, none, none, none, false⟩]
        ⟨"9876543210", none, none, some "333333", some (0 + 600000), false⟩ ∧
    (resendOtp ⟨some "production", none⟩
        [⟨"9876543210", none, none, none, none, false⟩] "9876543210" "333333" 0).2 =
      (sendOtp ⟨some "production", none⟩
        [⟨"9876543210", none, none, none, none, false⟩] "9876543210" "333333" 0).2 :=
  resendOtp_amended ⟨some "production", none⟩ []
    [⟨"9876543210", none, none, none, none, false⟩] "9876543210" "333333" 0
    ⟨"9876543210", none, none, none, none, false⟩
    rfl (by decide) rfl (by decide)

/-! ## C3 machinery: keys, first rows, and the upsert algebra -/

theorem keyMem_append (s s2 : List ContactRec) (uid : Nat) (p : String) :
    keyMem (s ++ s2) uid p = (keyMem s uid p || keyMem s2 uid p) := by
  induction s with
  | nil => simp [keyMem]
  | cons r rest ih =>
    by_cases h : r.userId = uid ∧ r.phoneNumber = p
    · simp [keyMem, h]
    · simp [keyMem, h, ih]

theorem keyMem_iff_mem_map {s : List ContactRec} {a : Nat} {b : String} :
    keyMem s a b = true ↔ (a, b) ∈ s.map rowKey := by
  induction s with
  | nil => simp [keyMem]
  | cons r rest ih =>
    by_cases h : r.userId = a ∧ r.phoneNumber = b
    · simp [keyMem, h, rowKey, h.1, h.2]
    · have : ¬((a, b) = rowKey r) := by
        simp only [rowKey, Prod.mk.injEq]
        intro hx
        exact h ⟨hx.1.symm, hx.2.symm⟩
      simp [keyMem, h, ih, this]

theorem map_rowKey_setFirst (s : List ContactRec) (uid : Nat) (p nm : String)
    (em : Option String) (t : Int) :
    (setFirst s uid p nm em t).map rowKey = s.map rowKey := by
  induction s with
  | nil => rfl
  | cons r rest ih =>
    by_cases h : r.userId = uid ∧ r.phoneNumber = p
    · simp [setFirst, h, rowKey]
    · simp [setFirst, h, ih]

theorem keyMem_setFirst (s : List ContactRec) (uid : Nat) (p nm : String)
    (em : Option String) (t : Int) (a : Nat) (b : String) :
    keyMem (setFirst s uid p nm em t) a b = keyMem s a b := by
  by_cases h : keyMem s a b = true
  · have := keyMem_iff_mem_map.mp h
    rw [h]
    exact keyMem_iff_mem_map.mpr (by rw [map_rowKey_setFirst]; exact this)
  · have h2 : keyMem s a b = false := by
      cases hx : keyMem s a b
      · rfl
      · exact absurd hx h
    rw [h2]
    cases hx : keyMem (setFirst s uid p nm em t) a b
    · rfl
    · exact absurd (keyMem_iff_mem_map.mpr
        (by rw [← map_rowKey_setFirst s uid p nm em t]
            exact keyMem_iff_mem_map.mp hx)) h

theorem keyMem_upsert_self (s : List ContactRec) (uid : Nat) (c : ContactInput) (t : Int) :
    keyMem (upsertContact s uid c t) uid c.phoneNumber = true := by
  unfold upsertContact
  by_cases hk : keyMem s uid c.phoneNumber = true
  · rw [if_pos hk, keyMem_setFirst]
    exact hk
  · rw [if_neg hk, keyMem_append]
    simp [keyMem]

theorem keyMem_upsert_mono {s : List ContactRec} {a : Nat} {b : String}
    (uid : Nat) (c : ContactInput) (t : Int) (h : keyMem s a b = true) :
    keyMem (upsertContact s uid c t) a b = true := by
  unfold upsertContact
  by_cases hk : keyMem s uid c.phoneNumber = true
  · rw [if_pos hk, keyMem_setFirst]
    exact h
  · rw [if_neg hk, keyMem_append, h]
    rfl

theorem keyMem_runBulk_mono {s : List ContactRec} {a : Nat} {b : String}
    (uid : Nat) (cs : List ContactInput) (t : Int) (h : keyMem s a b = true) :
    keyMem (runBulkUpsert s uid cs t) a b = true := by
  induction cs generalizing s with
  | nil => exact h
  | cons c rest ih => exact ih (keyMem_upsert_mono uid c t h)

theorem setFirst_setFirst_same (s : List ContactRec) (uid : Nat) (p nm nm2 : String)
    (em em2 : Option String) (t t2 : Int) :
    setFirst (setFirst s uid p nm em t) uid p nm2 em2 t2 = setFirst s uid p nm2 em2 t2 := by
  induction s with
  | nil => rfl
  | cons r rest ih =>
    by_cases h : r.userId = uid ∧ r.phoneNumber = p
    · simp [setFirst, h]
    · simp [setFirst, h, ih]

theorem setFirst_comm {p q : String} (hpq : p ≠ q) (s : List ContactRec) (uid : Nat)
    (nm nm2 : String) (em em2 : Option String) (t t2 : Int) :
    setFirst (setFirst s uid p nm em t) uid q nm2 em2 t2 =
      setFirst (setFirst s uid q nm2 em2 t2) uid p nm em t := by
  induction s with
  | nil => rfl
  | cons r rest ih =>
    by_cases h1 : r.userId = uid ∧ r.phoneNumber = p
    · have h2 : ¬(r.userId = uid ∧ r.phoneNumber = q) := by
        rintro ⟨_, hq⟩
        exact hpq (h1.2.symm.trans hq)
      simp [setFirst, h1, h2, hpq, Ne.symm hpq]
    · by_cases h2 : r.userId = uid ∧ r.phoneNumber = q
      · simp [setFirst, h1, h2, hpq, Ne.symm hpq]
      · simp [setFirst, h1, h2, ih]

theorem setFirst_append_of_mem {s : List ContactRec} {uid : Nat} {p : String}
    (hk : keyMem s uid p = true) (l : List ContactRec) (nm : String)
    (em : Option String) (t : Int) :
    setFirst (s ++ l) uid p nm em t = setFirst s uid p nm em t ++ l := by
  induction s with
  | nil => simp [keyMem] at hk
  | cons r rest ih =>
    by_cases h : r.userId = uid ∧ r.phoneNumber = p
    · simp [setFirst, h]
    · have hk2 : keyMem rest uid p = true := by
        simpa [keyMem, h] using hk
      simp [setFirst, h, ih hk2]

theorem keyMem_eq_isSome (s : List ContactRec) (uid : Nat) (p : String) :
    keyMem s uid p = (firstRowAt s uid p).isSome := by
  induction s with
  | nil => rfl
  | cons r rest ih =>
    by_cases h : r.userId = uid ∧ r.phoneNumber = p
    · simp [keyMem, firstRowAt, h]
    · simp [keyMem, firstRowAt, h, ih]

theorem firstRowAt_setFirst_ne {p q : String} (hpq : q ≠ p) (s : List ContactRec)
    (uid : Nat) (nm : String) (em : Option String) (t : Int) :
    firstRowAt (setFirst s uid q nm em t) uid p = firstRowAt s uid p := by
  induction s with
  | nil => rfl
  | cons r rest ih =>
    by_cases h2 : r.userId = uid ∧ r.phoneNumber = q
    · have h1 : ¬(r.userId = uid ∧ r.phoneNumber = p) := by
        rintro ⟨_, hp⟩
        exact hpq (h2.2.symm.trans hp)
      simp [setFirst, firstRowAt, h1, h2, hpq, Ne.symm hpq]
    · by_cases h1 : r.userId = uid ∧ r.phoneNumber = p
      · simp [setFirst, firstRowAt, h1, h2, hpq, Ne.symm hpq]
      · simp [setFirst, firstRowAt, h1, h2, ih]

theorem firstRowAt_append_of_some {s : List ContactRec} {uid : Nat} {p : String}
    {r : ContactRec} (h : firstRowAt s uid p = some r) (l : List ContactRec) :
    firstRowAt (s ++ l) uid p = some r := by
  induction s with
  | nil => simp [firstRowAt] at h
  | cons v rest ih =>
    by_cases hv : v.userId = uid ∧ v.phoneNumber = p
    · simp [firstRowAt, hv] at h ⊢
      exact h
    · simp [firstRowAt, hv] at h ⊢
      exact ih h

theorem firstRowAt_append_of_none {s : List ContactRec} {uid : Nat} {p : String}
    (h : firstRowAt s uid p = none) (l : List ContactRec) :
    firstRowAt (s ++ l) uid p = firstRowAt l uid p := by
  induction s with
  | nil => rfl
  | cons v rest ih =>
    by_cases hv : v.userId = uid ∧ v.phoneNumber = p
    · simp [firstRowAt, hv] at h
    · simp [firstRowAt, hv] at h ⊢
      exact ih h

theorem firstRowAt_upsert_ne {q : String} {c : ContactInput} (hq : q ≠ c.phoneNumber)
    (s : List ContactRec) (uid : Nat) (t : Int) :
    firstRowAt (upsertContact s uid c t) uid q = firstRowAt s uid q := by
  unfold upsertContact
  by_cases hk : keyMem s uid c.phoneNumber = true
  · rw [if_pos hk]
    exact firstRowAt_setFirst_ne (Ne.symm hq) s uid c.name (emailOrNull c.email) t
  · rw [if_neg hk]
    cases hx : firstRowAt s uid q with
    | some r => exact firstRowAt_append_of_some hx _
    | none =>
      rw [firstRowAt_append_of_none hx]
      have hne : ¬(c.phoneNumber = q) := fun h => hq h.symm
      simp [firstRowAt, hne]

theorem firstRowAt_runBulk_ne {p : String} {cs : List ContactInput}
    (hcs : ∀ d ∈ cs, d.phoneNumber ≠ p) (s : List ContactRec) (uid : Nat) (t : Int) :
    firstRowAt (runBulkUpsert s uid cs t) uid p = firstRowAt s uid p := by
  induction cs generalizing s with
  | nil => rfl
  | cons c rest ih =>
    have hc : p ≠ c.phoneNumber := fun h => hcs c (by simp) h.symm
    have H : firstRowAt (runBulkUpsert (upsertContact s uid c t) uid rest t) uid p =
        firstRowAt (upsertContact s uid c t) uid p :=
      ih (fun d hd => hcs d (List.mem_cons_of_mem c hd)) (upsertContact s uid c t)
    show firstRowAt (runBulkUpsert (upsertContact s uid c t) uid rest t) uid p = _
    rw [H, firstRowAt_upsert_ne hc]

theorem firstRowAt_upsert_self (s : List ContactRec) (uid : Nat) (c : ContactInput) (t : Int) :
    ∃ r, firstRowAt (upsertContact s uid c t) uid c.phoneNumber = some r ∧
      r.name = c.name ∧ r.email = emailOrNull c.email ∧ r.syncedAt = t := by
  unfold upsertContact
  by_cases hk : keyMem s uid c.phoneNumber = true
  · rw [if_pos hk]
    induction s with
    | nil => simp [keyMem] at hk
    | cons v rest ih =>
      by_cases hv : v.userId = uid ∧ v.phoneNumber = c.phoneNumber
      · refine ⟨{ v with name := c.name, email := emailOrNull c.email, syncedAt := t }, ?_⟩
        simp [setFirst, firstRowAt, hv]
      · have hk2 : keyMem rest uid c.phoneNumber = true := by
          simpa [keyMem, hv] using hk
        obtain ⟨r, hr, hprops⟩ := ih hk2
        exact ⟨r, by simp [setFirst, firstRowAt, hv]; exact ⟨hr, hprops⟩⟩
  · rw [if_neg hk]
    have hnone : firstRowAt s uid c.phoneNumber = none := by
      have := keyMem_eq_isSome s uid c.phoneNumber
      cases hx : firstRowAt s uid c.phoneNumber
      · rfl
      · rw [hx] at this
        exact absurd this.symm (by simpa using hk)
    rw [firstRowAt_append_of_none hnone]
    refine ⟨⟨uid, c.phoneNumber, c.name, emailOrNull c.email, t⟩, ?_, rfl, rfl, rfl⟩
    simp [firstRowAt]

theorem setFirst_of_firstRowAt_eq {s : List ContactRec} {uid : Nat} {p : String}
    {r : ContactRec} (h : firstRowAt s uid p = some r) {nm : String}
    {em : Option String} {t : Int}
    (hn : r.name = nm) (he : r.email = em) (ht : r.syncedAt = t) :
    setFirst s uid p nm em t = s := by
  induction s with
  | nil => rfl
  | cons v rest ih =>
    by_cases hv : v.userId = uid ∧ v.phoneNumber = p
    · have hvr : v = r := by simpa [firstRowAt, hv] using h
      subst hvr
      simp only [setFirst, if_pos hv]
      rw [← hn, ← he, ← ht]
    · simp [firstRowAt, hv] at h
      simp [setFirst, hv, ih h]

theorem diffOne_upsert_collapse {uid : Nat} {p : String} {s1 s2 : List ContactRec}
    (h : DiffOne uid p s1 s2) {d : ContactInput} (hd : d.phoneNumber = p) (t : Int) :
    upsertContact s2 uid d t = upsertContact s1 uid d t := by
  obtain ⟨hk, nm, em, t0, rfl⟩ := h
  have hk2 : keyMem (setFirst s1 uid p nm em t0) uid d.phoneNumber = true := by
    rw [keyMem_setFirst, hd]
    exact hk
  have hk1 : keyMem s1 uid d.phoneNumber = true := by
    rw [hd]
    exact hk
  rw [upsertContact, if_pos hk2, upsertContact, if_pos hk1, hd,
    setFirst_setFirst_same]

theorem diffOne_upsert_ne {uid : Nat} {p : String} {s1 s2 : List ContactRec}
    (h : DiffOne uid p s1 s2) {d : ContactInput} (hd : d.phoneNumber ≠ p) (t : Int) :
    DiffOne uid p (upsertContact s1 uid d t) (upsertContact s2 uid d t) := by
  obtain ⟨hk, nm, em, t0, rfl⟩ := h
  by_cases hkd : keyMem s1 uid d.phoneNumber = true
  · have hkd2 : keyMem (setFirst s1 uid p nm em t0) uid d.phoneNumber = true := by
      rw [keyMem_setFirst]
      exact hkd
    simp only [upsertContact]
    rw [if_pos hkd, if_pos hkd2, setFirst_comm (Ne.symm hd)]
    exact ⟨by rw [keyMem_setFirst]; exact hk, nm, em, t0, rfl⟩
  · have hkd2 : ¬keyMem (setFirst s1 uid p nm em t0) uid d.phoneNumber = true := by
      rw [keyMem_setFirst]
      exact hkd
    simp only [upsertContact]
    rw [if_neg hkd, if_neg hkd2, ← setFirst_append_of_mem hk]
    refine ⟨?_, nm, em, t0, rfl⟩
    rw [keyMem_append, hk]
    rfl

theorem runBulk_diffOne {uid : Nat} {p : String} (t : Int) :
    ∀ (cs : List ContactInput) (s1 s2 : List ContactRec), DiffOne uid p s1 s2 →
      (∃ d ∈ cs, d.phoneNumber = p) →
      runBulkUpsert s2 uid cs t = runBulkUpsert s1 uid cs t := by
  intro cs
  induction cs with
  | nil =>
    intro s1 s2 _ hex
    simp at hex
  | cons c rest ih =>
    intro s1 s2 h hex
    by_cases hc : c.phoneNumber = p
    · show runBulkUpsert (upsertContact s2 uid c t) uid rest t =
        runBulkUpsert (upsertContact s1 uid c t) uid rest t
      rw [diffOne_upsert_collapse h hc t]
    · obtain ⟨d, hd, hdp⟩ := hex
      have hdrest : d ∈ rest := by
        rcases List.mem_cons.mp hd with h1 | h1
        · exact absurd (h1 ▸ hdp) hc
        · exact h1
      exact ih (upsertContact s1 uid c t) (upsertContact s2 uid c t)
        (diffOne_upsert_ne h hc t) ⟨d, hdrest, hdp⟩

theorem runBulkUpsert_idem (uid : Nat) (t : Int) :
    ∀ (cs : List ContactInput) (s : List ContactRec),
      runBulkUpsert (runBulkUpsert s uid cs t) uid cs t = runBulkUpsert s uid cs t := by
  intro cs
  induction cs with
  | nil =>
    intro s
    rfl
  | cons c rest ih =>
    intro s
    show runBulkUpsert
        (upsertContact (runBulkUpsert (upsertContact s uid c t) uid rest t) uid c t)
        uid rest t =
      runBulkUpsert (upsertContact s uid c t) uid rest t
    have hkey : keyMem (runBulkUpsert (upsertContact s uid c t) uid rest t)
        uid c.phoneNumber = true :=
      keyMem_runBulk_mono uid rest t (keyMem_upsert_self s uid c t)
    have hup : upsertContact (runBulkUpsert (upsertContact s uid c t) uid rest t) uid c t =
        setFirst (runBulkUpsert (upsertContact s uid c t) uid rest t)
          uid c.phoneNumber c.name (emailOrNull c.email) t := by
      rw [upsertContact, if_pos hkey]
    by_cases hd : ∃ d ∈ rest, d.phoneNumber = c.phoneNumber
    · have hdiff : DiffOne uid c.phoneNumber
          (runBulkUpsert (upsertContact s uid c t) uid rest t)
          (upsertContact (runBulkUpsert (upsertContact s uid c t) uid rest t) uid c t) :=
        ⟨hkey, c.name, emailOrNull c.email, t, hup⟩
      rw [runBulk_diffOne t rest _ _ hdiff hd]
      exact ih (upsertContact s uid c t)
    · push_neg at hd
      obtain ⟨r, hr, hrn, hre, hrt⟩ := firstRowAt_upsert_self s uid c t
      have hA : firstRowAt (runBulkUpsert (upsertContact s uid c t) uid rest t)
          uid c.phoneNumber = some r := by
        rw [firstRowAt_runBulk_ne hd (upsertContact s uid c t) uid t]
        exact hr
      rw [hup, setFirst_of_firstRowAt_eq hA hrn hre hrt]
      exact ih (upsertContact s uid c t)

theorem uniqueKeys_upsert {s : List ContactRec} (uid : Nat) (c : ContactInput) (t : Int)
    (h : UniqueKeys s) : UniqueKeys (upsertContact s uid c t) := by
  unfold upsertContact
  by_cases hk : keyMem s uid c.phoneNumber = true
  · rw [if_pos hk]
    unfold UniqueKeys
    rw [map_rowKey_setFirst]
    exact h
  · rw [if_neg hk]
    unfold UniqueKeys
    rw [List.map_append]
    refine h.append (List.nodup_singleton _) ?_
    intro k hks hk1
    simp only [List.map_cons, List.map_nil, List.mem_singleton] at hk1
    subst hk1
    exact hk (keyMem_iff_mem_map.mpr hks)

theorem uniqueKeys_runBulk {s : List ContactRec} (uid : Nat) (cs : List ContactInput)
    (t : Int) (h : UniqueKeys s) : UniqueKeys (runBulkUpsert s uid cs t) := by
  induction cs generalizing s with
  | nil => exact h
  | cons c rest ih => exact ih (uniqueKeys_upsert uid c t h)

/-! ## C3: contact sync is idempotent and never duplicates keys -/

/-- C3: running `syncContacts` a second time with the identical batch (same
user, contacts, optional own number and timestamp) returns the same result
and leaves the contact rows exactly as after the first run; and starting from
any store satisfying the `(userId, phoneNumber)` uniqueness invariant the
resulting store satisfies it as well. -/
theorem syncContacts_idem_unique
    (store : List ContactRec) (uid : Nat) (user : Option UserRec)
    (contacts : List ContactInput) (userPhone : Option String) (t : Int)
    (huniq : UniqueKeys store) :
    syncContacts (syncContacts store uid user contacts userPhone t).2
        uid user contacts userPhone t =
      syncContacts store uid user contacts userPhone t ∧
    UniqueKeys (syncContacts store uid user contacts userPhone t).2 := by
  by_cases hempty : contacts = []
  · subst hempty
    exact ⟨rfl, huniq⟩
  · constructor
    · simp only [syncContacts, if_neg hempty]
      rw [runBulkUpsert_idem]
    · simp only [syncContacts, if_neg hempty]
      exact uniqueKeys_runBulk uid _ t huniq

theorem syncContacts_idem_unique_witness :
    syncContacts (syncContacts [] 1 (some ⟨"9876543210", some "Me", none, none, none, true⟩)
        [⟨"Alice", "5550001111", none⟩, ⟨"Alice2", "5550001111", some "a@x.io"⟩]
        (some "9876543210") 7).2
      1 (some ⟨"9876543210", some "Me", none, none, none, true⟩)
      [⟨"Alice", "5550001111", none⟩, ⟨"Alice2", "5550001111", some "a@x.io"⟩]
      (some "9876543210") 7 =
      syncContacts [] 1 (some ⟨"9876543210", some "Me", none, none, none, true⟩)
        [⟨"Alice", "5550001111", none⟩, ⟨"Alice2", "5550001111", some "a@x.io"⟩]
        (some "9876543210") 7 ∧
    UniqueKeys (syncContacts [] 1 (some ⟨"9876543210", some "Me", none, none, none, true⟩)
        [⟨"Alice", "5550001111", none⟩, ⟨"Alice2", "5550001111", some "a@x.io"⟩]
        (some "9876543210") 7).2 :=
  syncContacts_idem_unique [] 1 (some ⟨"9876543210", some "Me", none, none, none, true⟩)
    [⟨"Alice", "5550001111", none⟩, ⟨"Alice2", "5550001111", some "a@x.io"⟩]
    (some "9876543210") 7 List.nodup_nil

/-! ## C4/C10 machinery: the SMS batch loop -/

theorem reqStr_some {v : Option String} (h : reqStr v = true) :
    ∃ s, v = some s ∧ s ≠ "" := by
  cases v with
  | none => simp [reqStr] at h
  | some s =>
    refine ⟨s, rfl, ?_⟩
    simpa [reqStr] using h

theorem smsDup_append (s s2 : List SmsRec) (uid : Nat) (o : Option String) :
    smsDup (s ++ s2) uid o = (smsDup s uid o || smsDup s2 uid o) := by
  induction s with
  | nil =>
    cases o <;> simp [smsDup]
  | cons r rest ih =>
    cases o with
    | some i =>
      by_cases h : r.userId = uid ∧ r.smsId = i
      · simp [smsDup, h]
      · simp [smsDup, h] at ih ⊢
        exact ih
    | none =>
      by_cases h : r.userId = uid
      · simp [smsDup, h]
      · simp [smsDup, h] at ih ⊢
        exact ih

theorem smsDup_mono_step {store : List SmsRec} {uid : Nat} {o : Option String}
    (it : SmsItem) (h : smsDup store uid o = true) :
    smsDup (processSmsItem uid store it).2 uid o = true := by
  unfold processSmsItem
  by_cases h1 : smsDup store uid it.id = true
  · rw [if_pos h1]
    exact h
  · rw [if_neg h1]
    by_cases h2 : validSmsItem it = true
    · rw [if_pos h2]
      rw [smsDup_append, h]
      rfl
    · rw [if_neg h2]
      exact h

theorem smsDup_mono_run {uid : Nat} {o : Option String} :
    ∀ (items : List SmsItem) (store : List SmsRec), smsDup store uid o = true →
      smsDup (runSmsBatch uid store items).2 uid o = true := by
  intro items
  induction items with
  | nil => exact fun store h => h
  | cons it rest ih =>
    intro store h
    exact ih (processSmsItem uid store it).2 (smsDup_mono_step it h)

theorem smsDup_no_new {uid : Nat} {i : String} :
    ∀ (items : List SmsItem) (store : List SmsRec),
      (∀ d ∈ items, d.id ≠ some i) → smsDup store uid (some i) = false →
      smsDup (runSmsBatch uid store items).2 uid (some i) = false := by
  intro items
  induction items with
  | nil => exact fun store _ h => h
  | cons it rest ih =>
    intro store hids h
    have hstep : smsDup (processSmsItem uid store it).2 uid (some i) = false := by
      unfold processSmsItem
      by_cases h1 : smsDup store uid it.id = true
      · rw [if_pos h1]
        exact h
      · rw [if_neg h1]
        by_cases h2 : validSmsItem it = true
        · rw [if_pos h2, smsDup_append, h]
          obtain ⟨j, hj, _⟩ := reqStr_some (by
            have := h2
            unfold validSmsItem at this
            exact (Bool.and_eq_true_iff.mp
              ((Bool.and_eq_true_iff.mp
                ((Bool.and_eq_true_iff.mp
                  ((Bool.and_eq_true_iff.mp this).1)).1)).1)).1)
          have hji : j ≠ i := by
            intro hx
            exact hids it (by simp) (by rw [hj, hx])
          have hgd : ¬((it.id.getD "") = i) := by
            rw [hj]
            exact fun hx => hji hx
          simp [smsDup, hgd]
        · rw [if_neg h2]
          exact h
    exact ih (processSmsItem uid store it).2 (fun d hd => hids d (by simp [hd])) hstep

theorem runSmsBatch_append (uid : Nat) (xs ys : List SmsItem) :
    ∀ store : List SmsRec,
      runSmsBatch uid store (xs ++ ys) =
        ((runSmsBatch uid store xs).1 ++
            (runSmsBatch uid (runSmsBatch uid store xs).2 ys).1,
          (runSmsBatch uid (runSmsBatch uid store xs).2 ys).2) := by
  induction xs with
  | nil => intro store; rfl
  | cons it rest ih =>
    intro store
    show runSmsBatch uid store (it :: (rest ++ ys)) = _
    simp only [runSmsBatch]
    rw [ih (processSmsItem uid store it).2]
    rfl

theorem runSmsBatch_length (uid : Nat) (items : List SmsItem) :
    ∀ store : List SmsRec, (runSmsBatch uid store items).1.length = items.length := by
  induction items with
  | nil => intro store; rfl
  | cons it rest ih =>
    intro store
    simp only [runSmsBatch, List.length_cons]
    rw [ih]

theorem runSmsBatch_skips {uid : Nat} {i : String} :
    ∀ (items : List SmsItem) (store : List SmsRec) (j : Nat) (d : SmsItem),
      smsDup store uid (some i) = true → items.get? j = some d → d.id = some i →
      (runSmsBatch uid store items).1.get? j = some SmsOutcome.skipped := by
  intro items
  induction items with
  | nil =>
    intro store j d _ hj _
    simp at hj
  | cons e rest ih =>
    intro store j d hdup hj hd
    cases j with
    | zero =>
      simp only [List.get?] at hj
      have hde : e = d := by injection hj
      have he : smsDup store uid e.id = true := by
        rw [hde, hd]
        exact hdup
      simp only [runSmsBatch, processSmsItem, if_pos he]
      rfl
    | succ j2 =>
      simp only [List.get?] at hj
      have hdup2 : smsDup (processSmsItem uid store e).2 uid (some i) = true :=
        smsDup_mono_step e hdup
      simp only [runSmsBatch, List.get?]
      exact ih (processSmsItem uid store e).2 j2 d hdup2 hj hd

theorem dupCount_extend {i : String} {row : SmsRec} (uid : Nat) (hrow : row.smsId = i) :
    ∀ (rest : List SmsItem) (store : List SmsRec),
      (∀ d ∈ rest, d.id ≠ some i) → (∀ d ∈ rest, d.id.isSome) →
      dupCount (store ++ [row]) uid rest = dupCount store uid rest := by
  intro rest
  induction rest with
  | nil => intro store _ _; rfl
  | cons d rest2 ih =>
    intro store hids hsome
    have hd : d.id.isSome := hsome d (by simp)
    obtain ⟨j, hj⟩ : ∃ j, d.id = some j := by
      cases hx : d.id
      · rw [hx] at hd; simp at hd
      · exact ⟨_, rfl⟩
    have hji : j ≠ i := by
      intro hx
      exact hids d (by simp) (by rw [hj, hx])
    have hrowj : smsDup [row] uid (some j) = false := by
      have : ¬(row.userId = uid ∧ row.smsId = j) := by
        rintro ⟨_, hx⟩
        exact hji (by rw [← hrow, hx])
      simp [smsDup, this]
    have hstep : smsDup (store ++ [row]) uid d.id = smsDup store uid d.id := by
      rw [hj, smsDup_append, hrowj, Bool.or_false]
    simp only [dupCount, hstep]
    rw [ih store (fun x hx => hids x (by simp [hx])) (fun x hx => hsome x (by simp [hx]))]

theorem runSmsBatch_counters (uid : Nat) :
    ∀ (items : List SmsItem) (store : List SmsRec),
      (∀ it ∈ items, it.id.isSome) → (items.map SmsItem.id).Nodup →
      countO (runSmsBatch uid store items).1 .skipped = dupCount store uid items ∧
      countO (runSmsBatch uid store items).1 .synced +
          countO (runSmsBatch uid store items).1 .skipped +
          countO (runSmsBatch uid store items).1 .errored = items.length ∧
      (runSmsBatch uid store items).2.length =
        store.length + countO (runSmsBatch uid store items).1 .synced := by
  intro items
  induction items with
  | nil =>
    intro store _ _
    exact ⟨rfl, rfl, rfl⟩
  | cons it rest ih =>
    intro store hsome hnodup
    have hsome2 : ∀ d ∈ rest, d.id.isSome := fun d hd => hsome d (by simp [hd])
    have hnodup2 : (rest.map SmsItem.id).Nodup := by
      simpa using hnodup.of_cons
    obtain ⟨i, hi⟩ : ∃ i, it.id = some i := by
      have := hsome it (by simp)
      cases hx : it.id
      · rw [hx] at this; simp at this
      · exact ⟨_, rfl⟩
    have hnotin : ∀ d ∈ rest, d.id ≠ some i := by
      intro d hd hx
      have hmem : it.id ∈ rest.map SmsItem.id := by
        rw [hi, ← hx]
        exact List.mem_map_of_mem SmsItem.id hd
      exact (List.nodup_cons.mp hnodup).1 hmem
    by_cases hdup : smsDup store uid it.id = true
    · have hproc : processSmsItem uid store it = (.skipped, store) := by
        simp [processSmsItem, hdup]
      obtain ⟨ih1, ih2, ih3⟩ := ih store hsome2 hnodup2
      simp only [runSmsBatch, hproc]
      refine ⟨?_, ?_, ?_⟩
      · simp [countO, dupCount, hdup, ih1]
      · simp [countO]
        omega
      · simp [countO, ih3]
    · have hdup2 : smsDup store uid it.id = false := by
        cases hx : smsDup store uid it.id
        · rfl
        · exact absurd hx hdup
      by_cases hval : validSmsItem it = true
      · have hproc : processSmsItem uid store it =
            (.synced, store ++
              [⟨uid, it.id.getD "", it.address.getD "", it.body.getD "",
                it.date.getD 0, it.msgType.getD ""⟩]) := by
          simp [processSmsItem, hdup, hval]
        have hrow : (⟨uid, it.id.getD "", it.address.getD "", it.body.getD "",
            it.date.getD 0, it.msgType.getD ""⟩ : SmsRec).smsId = i := by
          simp [hi]
        obtain ⟨ih1, ih2, ih3⟩ := ih (store ++
            [⟨uid, it.id.getD "", it.address.getD "", it.body.getD "",
              it.date.getD 0, it.msgType.getD ""⟩]) hsome2 hnodup2
        have hext := dupCount_extend uid hrow rest store hnotin hsome2
        simp only [runSmsBatch, hproc]
        refine ⟨?_, ?_, ?_⟩
        · simp [countO, dupCount, hdup2, ih1, hext]
        · simp [countO]
          omega
        · simp [countO, ih3, List.length_append]
          omega
      · have hproc : processSmsItem uid store it = (.errored, store) := by
          simp [processSmsItem, hdup, hval]
        obtain ⟨ih1, ih2, ih3⟩ := ih store hsome2 hnodup2
        simp only [runSmsBatch, hproc]
        refine ⟨?_, ?_, ?_⟩
        · simp [countO, dupCount, hdup2, ih1]
        · simp [countO]
          omega
        · simp [countO, ih3]

theorem get?_append_off {α : Type _} (a b : List α) (n : Nat) :
    (a ++ b).get? (a.length + n) = b.get? n := by
  induction a with
  | nil => simp
  | cons x xs ih =>
    show ((x :: (xs ++ b)).get? (xs.length + 1 + n)) = b.get? n
    have hidx : xs.length + 1 + n = (xs.length + n) + 1 := by omega
    rw [hidx, List.get?_cons_succ]
    exact ih

/-! ## C4: batch counters (corrected: in-batch duplicates also count as skipped) -/

/-- C4 counterexample: a batch repeating one fresh id twice against an empty
store has M = 0 duplicates of already-stored rows, yet the call reports
`synced = 1, skipped = 1, errors = 0` — not `synced = N - M - errors = 2` and
`skipped = M = 0` as claimed. -/
theorem syncSmsBatch_batch_dup_counterexample :
    dupCount ([] : List SmsRec) 1
      [⟨some "x", some "addr", some "hello", some 5, some "inbox"⟩,
        ⟨some "x", some "addr", some "hello", some 5, some "inbox"⟩] = 0 ∧
    (syncSmsBatch (some 1)
      (some [⟨some "x", some "addr", some "hello", some 5, some "inbox"⟩,
        ⟨some "x", some "addr", some "hello", some 5, some "inbox"⟩]) []).1 =
      SmsBatchResult.completed 1 1 0 ∧
    SmsBatchResult.completed 1 1 0 ≠ SmsBatchResult.completed (2 - 0 - 0) 0 0 := by
  decide

/-- C4 amended: for a batch whose item ids are all present and pairwise
distinct (so no in-batch duplicate arises), with M the number of items whose
`(userId, smsId)` pair is already stored, `syncSmsBatch` reports
`skipped = M`, `synced = N - M - errors`, the store grows by exactly
`N - M - errors` rows, and every one of the N items receives an outcome (a
failing item never aborts the loop). -/
theorem syncSmsBatch_counters_amended
    (uid : Nat) (items : List SmsItem) (store : List SmsRec)
    (hsome : ∀ it ∈ items, it.id.isSome)
    (hnodup : (items.map SmsItem.id).Nodup) :
    (syncSmsBatch (some uid) (some items) store).1 =
      SmsBatchResult.completed
        (items.length - dupCount store uid items -
          countO (runSmsBatch uid store items).1 .errored)
        (dupCount store uid items)
        (countO (runSmsBatch uid store items).1 .errored) ∧
    (syncSmsBatch (some uid) (some items) store).2.length =
      store.length +
        (items.length - dupCount store uid items -
          countO (runSmsBatch uid store items).1 .errored) ∧
    (runSmsBatch uid store items).1.length = items.length := by
  obtain ⟨h1, h2, h3⟩ := runSmsBatch_counters uid items store hsome hnodup
  have hsy : countO (runSmsBatch uid store items).1 .synced =
      items.length - dupCount store uid items -
        countO (runSmsBatch uid store items).1 .errored := by
    omega
  refine ⟨?_, ?_, runSmsBatch_length uid items store⟩
  · simp only [syncSmsBatch]
    rw [h1, hsy]
  · simp only [syncSmsBatch]
    rw [h3, hsy]

theorem syncSmsBatch_counters_amended_witness :
    (syncSmsBatch (some 1)
      (some [⟨some "x", some "addr", some "hi", some 5, some "inbox"⟩,
        ⟨some "y", some "addr", some "hi", some 5, some "inbox"⟩,
        ⟨some "z", none, some "hi", some 5, some "inbox"⟩])
      [⟨1, "y", "a", "b", 0, "inbox"⟩]).1 =
      SmsBatchResult.completed
        ((3 : Nat) - dupCount [⟨1, "y", "a", "b", 0, "inbox"⟩] 1
            [⟨some "x", some "addr", some "hi", some 5, some "inbox"⟩,
              ⟨some "y", some "addr", some "hi", some 5, some "inbox"⟩,
              ⟨some "z", none, some "hi", some 5, some "inbox"⟩] -
          countO (runSmsBatch 1 [⟨1, "y", "a", "b", 0, "inbox"⟩]
            [⟨some "x", some "addr", some "hi", some 5, some "inbox"⟩,
              ⟨some "y", some "addr", some "hi", some 5, some "inbox"⟩,
              ⟨some "z", none, some "hi", some 5, some "inbox"⟩]).1 .errored)
        (dupCount [⟨1, "y", "a", "b", 0, "inbox"⟩] 1
          [⟨some "x", some "addr", some "hi", some 5, some "inbox"⟩,
            ⟨some "y", some "addr", some "hi", some 5, some "inbox"⟩,
            ⟨some "z", none, some "hi", some 5, some "inbox"⟩])
        (countO (runSmsBatch 1 [⟨1, "y", "a", "b", 0, "inbox"⟩]
          [⟨some "x", some "addr", some "hi", some 5, some "inbox"⟩,
            ⟨some "y", some "addr", some "hi", some 5, some "inbox"⟩,
            ⟨some "z", none, some "hi", some 5, some "inbox"⟩]).1 .errored) ∧
    (syncSmsBatch (some 1)
      (some [⟨some "x", some "addr", some "hi", some 5, some "inbox"⟩,
        ⟨some "y", some "addr", some "hi", some 5, some "inbox"⟩,
        ⟨some "z", none, some "hi", some 5, some "inbox"⟩])
      [⟨1, "y", "a", "b", 0, "inbox"⟩]).2.length =
      (1 : Nat) +
        ((3 : Nat) - dupCount [⟨1, "y", "a", "b", 0, "inbox"⟩] 1
            [⟨some "x", some "addr", some "hi", some 5, some "inbox"⟩,
              ⟨some "y", some "addr", some "hi", some 5, some "inbox"⟩,
              ⟨some "z", none, some "hi", some 5, some "inbox"⟩] -
          countO (runSmsBatch 1 [⟨1, "y", "a", "b", 0, "inbox"⟩]
            [⟨some "x", some "addr", some "hi", some 5, some "inbox"⟩,
              ⟨some "y", some "addr", some "hi", some 5, some "inbox"⟩,
              ⟨some "z", none, some "hi", some 5, some "inbox"⟩]).1 .errored) ∧
    (runSmsBatch 1 [⟨1, "y", "a", "b", 0, "inbox"⟩]
      [⟨some "x", some "addr", some "hi", some 5, some "inbox"⟩,
        ⟨some "y", some "addr", some "hi", some 5, some "inbox"⟩,
        ⟨some "z", none, some "hi", some 5, some "inbox"⟩]).1.length = 3 :=
  syncSmsBatch_counters_amended 1
    [⟨some "x", some "addr", some "hi", some 5, some "inbox"⟩,
      ⟨some "y", some "addr", some "hi", some 5, some "inbox"⟩,
      ⟨some "z", none, some "hi", some 5, some "inbox"⟩]
    [⟨1, "y", "a", "b", 0, "inbox"⟩] (by decide) (by decide)

/-! ## C10: duplicate suppression applies within a single batch -/

/-- C10: when a batch contains a first, successfully inserted occurrence of a
fresh smsId and later occurrences of the same id, the first occurrence is
counted as synced and every later occurrence is counted as skipped — each
item's existence check runs against the store as updated by the preceding
items' inserts. -/
theorem syncSmsBatch_in_batch_dedup
    (uid : Nat) (store : List SmsRec) (l1 l2 : List SmsItem) (c d : SmsItem)
    (i : String) (j : Nat)
    (hc : c.id = some i)
    (hnew : smsDup store uid (some i) = false)
    (hfirst : ∀ e ∈ l1, e.id ≠ some i)
    (hvalid : validSmsItem c = true)
    (hj : l2.get? j = some d)
    (hd : d.id = some i) :
    (runSmsBatch uid store (l1 ++ c :: l2)).1.get? l1.length =
      some SmsOutcome.synced ∧
    (runSmsBatch uid store (l1 ++ c :: l2)).1.get? (l1.length + 1 + j) =
      some SmsOutcome.skipped := by
  rw [runSmsBatch_append uid l1 (c :: l2) store]
  have hs1 : smsDup (runSmsBatch uid store l1).2 uid (some i) = false :=
    smsDup_no_new l1 store hfirst hnew
  have hproc : processSmsItem uid (runSmsBatch uid store l1).2 c =
      (.synced, (runSmsBatch uid store l1).2 ++
        [⟨uid, c.id.getD "", c.address.getD "", c.body.getD "",
          c.date.getD 0, c.msgType.getD ""⟩]) := by
    simp [processSmsItem, hc, hs1, hvalid]
  have hdup2 : smsDup ((runSmsBatch uid store l1).2 ++
      [⟨uid, c.id.getD "", c.address.getD "", c.body.getD "",
        c.date.getD 0, c.msgType.getD ""⟩]) uid (some i) = true := by
    rw [smsDup_append, hs1]
    simp [smsDup, hc]
  have hlen : (runSmsBatch uid store l1).1.length = l1.length :=
    runSmsBatch_length uid l1 store
  have hrun2 : runSmsBatch uid (runSmsBatch uid store l1).2 (c :: l2) =
      (SmsOutcome.synced ::
        (runSmsBatch uid ((runSmsBatch uid store l1).2 ++
          [⟨uid, c.id.getD "", c.address.getD "", c.body.getD "",
            c.date.getD 0, c.msgType.getD ""⟩]) l2).1,
        (runSmsBatch uid ((runSmsBatch uid store l1).2 ++
          [⟨uid, c.id.getD "", c.address.getD "", c.body.getD "",
            c.date.getD 0, c.msgType.getD ""⟩]) l2).2) := by
    simp only [runSmsBatch, hproc]
  constructor
  · have hidx : l1.length = (runSmsBatch uid store l1).1.length + 0 := by omega
    rw [hidx, get?_append_off, hrun2]
    rfl
  · have hidx : l1.length + 1 + j = (runSmsBatch uid store l1).1.length + (j + 1) := by
      omega
    rw [hidx, get?_append_off, hrun2]
    show ((SmsOutcome.synced :: _).get? (j + 1)) = some SmsOutcome.skipped
    rw [List.get?_cons_succ]
    exact runSmsBatch_skips l2 _ j d hdup2 hj hd

theorem syncSmsBatch_in_batch_dedup_witness :
    (runSmsBatch 1 []
      ([] ++ ⟨some "x", some "addr", some "hello", some 5, some "inbox"⟩ ::
        [⟨some "x", some "addr", some "hello", some 5, some "inbox"⟩])).1.get? 0 =
      some SmsOutcome.synced ∧
    (runSmsBatch 1 []
      ([] ++ ⟨some "x", some "addr", some "hello", some 5, some "inbox"⟩ ::
        [⟨some "x", some "addr", some "hello", some 5, some "inbox"⟩])).1.get?
        (0 + 1 + 0) = some SmsOutcome.skipped :=
  syncSmsBatch_in_batch_dedup 1 [] []
    [⟨some "x", some "addr", some "hello", some 5, some "inbox"⟩]
    ⟨some "x", some "addr", some "hello", some 5, some "inbox"⟩
    ⟨some "x", some "addr", some "hello", some 5, some "inbox"⟩
    "x" 0 rfl rfl (by simp) (by decide) rfl rfl

end Laundry
